import Mathlib

/-!
Verification of the simple-book-api library service against its design
specification.  The definitions below are a shallow embedding of
`src/library/views.py`: the three module-level dictionaries (`books`,
`users`, `borrowed_books`), the two id counters, and the four request
handlers (`BookCreateView.post`, `UserCreateView.post`,
`BorrowBookView.post`, `UserBorrowedBooksView.get`).

Python dictionaries are modelled by insertion-ordered association lists
over `Nat` keys (every key ever inserted comes from one of the two
counters, which start at 1 and only grow).  Request-body values, which
arrive untyped from JSON, are modelled by the `ReqVal` type; Python
truthiness (`not v`) becomes `ReqVal.falsy`.
-/

namespace BookApi

/-- A request-payload value after JSON parsing: absent (`request.data.get`
returned `None`), an integer, or a string. -/
inductive ReqVal where
  | absent
  | intVal (n : Int)
  | strVal (s : String)
deriving Repr, DecidableEq

/-- Python truthiness: `not v` is true exactly for `None`, `0` and `""`
among the values modelled. -/
def ReqVal.falsy : ReqVal → Bool
  | .absent => true
  | .intVal n => n == 0
  | .strVal s => s == ""

/-- Python `str()` rendering, as used by the f-string in
`BorrowBookView.post`. -/
def ReqVal.toStr : ReqVal → String
  | .absent => "None"
  | .intVal n => toString n
  | .strVal s => s

/-- The dictionary key a request value can address in a dict whose keys
are the (positive, counter-issued) integers: a Python `in` / `[]` on an
int-keyed dict finds an entry only when the value is that integer. -/
def ReqVal.toKey : ReqVal → Option Nat
  | .intVal n => if 0 ≤ n then some n.toNat else none
  | _ => none

/-- A book record as built by `BookCreateView.post`:
`{"id": ..., "title": ..., "author": ..., "is_borrowed": ...}`. -/
structure Book where
  id : Nat
  title : ReqVal
  author : ReqVal
  is_borrowed : Bool
deriving Repr, DecidableEq

/-- A user record as built by `UserCreateView.post`: `{"id": ..., "name": ...}`. -/
structure User where
  id : Nat
  name : ReqVal
deriving Repr, DecidableEq

/-- An insertion-ordered dictionary with integer keys. -/
abbrev Dict (α : Type) := List (Nat × α)

/-- First-match lookup, the Python `d[k]` / `k in d` discipline. -/
def lookup {α : Type} : Dict α → Nat → Option α
  | [], _ => none
  | p :: m, k => if p.1 = k then some p.2 else lookup m k

/-- Python dict assignment `d[k] = v`: overwrite in place when the key is
present, append otherwise. -/
def dinsert {α : Type} (m : Dict α) (k : Nat) (v : α) : Dict α :=
  if (lookup m k).isSome then m.map fun p => if p.1 = k then (k, v) else p
  else m ++ [(k, v)]

/-- Resolve a request value against a dict: the key it addresses together
with the stored record, or `none` (the Python `rv not in d` case). -/
def dgetEntry {α : Type} (m : Dict α) (rv : ReqVal) : Option (Nat × α) :=
  match rv.toKey with
  | some k =>
    match lookup m k with
    | some v => some (k, v)
    | none => none
  | none => none

/-- The module-level mutable state of `views.py`: three dicts and two
counters. -/
structure LibState where
  books : Dict Book
  users : Dict User
  borrowed_books : Dict Nat
  book_id_counter : Nat
  user_id_counter : Nat
deriving Repr, DecidableEq

/-- The state at process start: empty dicts, both counters at 1. -/
def initState : LibState :=
  { books := [], users := [], borrowed_books := []
    book_id_counter := 1, user_id_counter := 1 }

/-- A handler response: the success payloads of the four endpoints, or an
error body `{"error": msg}` with its HTTP status. -/
inductive Resp where
  | bookCreated (b : Book)
  | userCreated (u : User)
  | borrowMsg (msg : String)
  | bookList (bs : List Book)
  | err (status : Nat) (msg : String)
deriving Repr, DecidableEq

/-- `BookCreateView.post`: validate presence of title and author, then
store a fresh book under the current counter and bump the counter. -/
def registerBook (s : LibState) (title author : ReqVal) : LibState × Resp :=
  if title.falsy || author.falsy then
    (s, .err 400 "Title and author are required.")
  else
    let book : Book :=
      { id := s.book_id_counter, title := title, author := author, is_borrowed := false }
    ({ s with books := dinsert s.books s.book_id_counter book
              book_id_counter := s.book_id_counter + 1 },
     .bookCreated book)

/-- `UserCreateView.post`: validate presence of name, then store a fresh
user under the current counter and bump the counter. -/
def registerUser (s : LibState) (name : ReqVal) : LibState × Resp :=
  if name.falsy then
    (s, .err 400 "Name is required.")
  else
    let user : User := { id := s.user_id_counter, name := name }
    ({ s with users := dinsert s.users s.user_id_counter user
              user_id_counter := s.user_id_counter + 1 },
     .userCreated user)

/-- The in-place mutation `book["is_borrowed"] = True` on the record
stored under key `k`. -/
def setBorrowed (m : Dict Book) (k : Nat) : Dict Book :=
  m.map fun p => if p.1 = k then (p.1, { p.2 with is_borrowed := true }) else p

/-- `BorrowBookView.post`: presence check, user lookup, book lookup,
availability check, then flip the flag, record the assignment and return
the confirmation message. -/
def borrowBook (s : LibState) (userId bookId : ReqVal) : LibState × Resp :=
  if userId.falsy || bookId.falsy then
    (s, .err 400 "userId and bookId are required.")
  else
    match dgetEntry s.users userId with
    | none => (s, .err 404 "User not found.")
    | some (uk, user) =>
      match dgetEntry s.books bookId with
      | none => (s, .err 404 "Book not found.")
      | some (bk, book) =>
        if book.is_borrowed then
          (s, .err 400 "Book is already borrowed.")
        else
          ({ s with books := setBorrowed s.books bk
                    borrowed_books := dinsert s.borrowed_books bk uk },
           .borrowMsg ("Book \x27" ++ book.title.toStr ++ "\x27 borrowed by user \x27"
             ++ user.name.toStr ++ "\x27."))

/-- The list comprehension in `UserBorrowedBooksView.get`:
`[books[book_id] for book_id, uid in borrowed_books.items() if uid == user_id]`.
(The indexing `books[book_id]` is total on every reachable state, by the
invariant proved below; `filterMap` makes the embedding total.) -/
def userBorrowedList (s : LibState) (user_id : Nat) : List Book :=
  (s.borrowed_books.filter fun p => p.2 == user_id).filterMap fun p => lookup s.books p.1

/-- `UserBorrowedBooksView.get`: the path parameter `user_id` is an
integer (Django `<int:user_id>` converter). -/
def listBorrowedBooks (s : LibState) (user_id : Nat) : LibState × Resp :=
  if (lookup s.users user_id).isSome = false then
    (s, .err 404 "User not found.")
  else
    (s, .bookList (userBorrowedList s user_id))

/-- One request against the service: the four endpoints. -/
inductive Op where
  | regBook (title author : ReqVal)
  | regUser (name : ReqVal)
  | borrow (userId bookId : ReqVal)
  | listB (user_id : Nat)
deriving Repr, DecidableEq

/-- The state transition of one request (the response is discarded). -/
def step (s : LibState) : Op → LibState
  | .regBook t a => (registerBook s t a).1
  | .regUser n => (registerUser s n).1
  | .borrow u b => (borrowBook s u b).1
  | .listB u => (listBorrowedBooks s u).1

/-- The state after a sequence of requests starting from process start. -/
def run (ops : List Op) : LibState := ops.foldl step initState

/-! ### Dictionary lemmas -/

theorem lookup_cons {α : Type} (p : Nat × α) (m : Dict α) (k : Nat) :
    lookup (p :: m) k = if p.1 = k then some p.2 else lookup m k := rfl

theorem setBorrowed_cons (p : Nat × Book) (m : Dict Book) (k : Nat) :
    setBorrowed (p :: m) k =
      (if p.1 = k then (p.1, { p.2 with is_borrowed := true }) else p) :: setBorrowed m k := rfl

theorem lookup_eq_none_iff {α : Type} (m : Dict α) (k : Nat) :
    lookup m k = none ↔ k ∉ m.map Prod.fst := by
  induction m with
  | nil => simp [lookup]
  | cons p m ih =>
    by_cases h : p.1 = k
    · simp [lookup_cons, h]
    · rw [lookup_cons, if_neg h, List.map_cons]
      rw [ih]
      constructor
      · intro hn hc
        rcases List.mem_cons.mp hc with hc | hc
        · exact h hc.symm
        · exact hn hc
      · intro hn hc
        exact hn (List.mem_cons_of_mem _ hc)

theorem lookup_isSome_iff_mem {α : Type} (m : Dict α) (k : Nat) :
    (lookup m k).isSome = true ↔ k ∈ m.map Prod.fst := by
  rw [← Decidable.not_iff_not, ← lookup_eq_none_iff]
  cases lookup m k <;> simp

theorem lookup_mem {α : Type} {m : Dict α} {k : Nat} {v : α}
    (h : lookup m k = some v) : (k, v) ∈ m := by
  induction m with
  | nil => simp [lookup] at h
  | cons p m ih =>
    by_cases hk : p.1 = k
    · rw [lookup_cons, if_pos hk] at h
      injection h with h
      subst h; subst hk
      exact List.mem_cons_self _ _
    · rw [lookup_cons, if_neg hk] at h
      exact List.mem_cons_of_mem _ (ih h)

theorem mem_lookup_of_nodup {α : Type} {m : Dict α} {k : Nat} {v : α}
    (hnd : (m.map Prod.fst).Nodup) (h : (k, v) ∈ m) : lookup m k = some v := by
  induction m with
  | nil => simp at h
  | cons p m ih =>
    simp only [List.map_cons, List.nodup_cons] at hnd
    rcases List.mem_cons.mp h with heq | hmem
    · subst heq; simp [lookup]
    · have hk : p.1 ≠ k := by
        intro hk
        exact hnd.1 (hk ▸ List.mem_map.mpr ⟨(k, v), hmem, rfl⟩)
      simp only [lookup, if_neg hk]
      exact ih hnd.2 hmem

theorem lookup_append_left {α : Type} {m : Dict α} {k : Nat} {v : α} (m' : Dict α)
    (h : lookup m k = some v) : lookup (m ++ m') k = some v := by
  induction m with
  | nil => simp [lookup] at h
  | cons p m ih =>
    by_cases hk : p.1 = k
    · simp only [lookup, if_pos hk] at h ⊢; exact h
    · simp only [lookup, if_neg hk] at h ⊢; exact ih h

theorem lookup_append_right {α : Type} {m m' : Dict α} {k : Nat}
    (h : lookup m k = none) : lookup (m ++ m') k = lookup m' k := by
  induction m with
  | nil => simp
  | cons p m ih =>
    by_cases hk : p.1 = k
    · simp [lookup, hk] at h
    · simp only [lookup, if_neg hk] at h ⊢
      exact ih h

theorem lookup_overwrite {α : Type} {m : Dict α} {k : Nat} (v : α)
    (h : (lookup m k).isSome = true) :
    lookup (m.map fun p => if p.1 = k then (k, v) else p) k = some v := by
  induction m with
  | nil => simp [lookup] at h
  | cons p m ih =>
    by_cases hk : p.1 = k
    · rw [List.map_cons, if_pos hk, lookup_cons]
      simp
    · rw [lookup_cons, if_neg hk] at h
      rw [List.map_cons, if_neg hk, lookup_cons, if_neg hk]
      exact ih h

theorem lookup_overwrite_ne {α : Type} {m : Dict α} {k j : Nat} (v : α) (h : j ≠ k) :
    lookup (m.map fun p => if p.1 = k then (k, v) else p) j = lookup m j := by
  induction m with
  | nil => simp [lookup]
  | cons p m ih =>
    have hkj : ¬(k = j) := fun hh => h hh.symm
    by_cases hk : p.1 = k
    · rw [List.map_cons, if_pos hk, lookup_cons, lookup_cons]
      have hpj : ¬(p.1 = j) := fun hh => hkj (hk ▸ hh)
      rw [if_neg hkj, if_neg hpj]
      exact ih
    · rw [List.map_cons, if_neg hk, lookup_cons, lookup_cons]
      by_cases hj : p.1 = j
      · rw [if_pos hj, if_pos hj]
      · rw [if_neg hj, if_neg hj]
        exact ih

theorem lookup_dinsert_self {α : Type} (m : Dict α) (k : Nat) (v : α) :
    lookup (dinsert m k v) k = some v := by
  unfold dinsert
  by_cases h : (lookup m k).isSome = true
  · rw [if_pos h]
    exact lookup_overwrite v h
  · have hnone : lookup m k = none := by
      cases hl : lookup m k
      · rfl
      · exact absurd (by simp [hl]) h
    rw [if_neg h, lookup_append_right hnone]
    simp [lookup]

theorem lookup_dinsert_ne {α : Type} (m : Dict α) {k j : Nat} (v : α) (h : j ≠ k) :
    lookup (dinsert m k v) j = lookup m j := by
  unfold dinsert
  by_cases hs : (lookup m k).isSome = true
  · rw [if_pos hs]
    exact lookup_overwrite_ne v h
  · rw [if_neg hs]
    cases hl : lookup m j with
    | some w => exact lookup_append_left _ hl
    | none =>
      rw [lookup_append_right hl, lookup_cons]
      have : ¬((k, v).1 = j) := fun hh => h hh.symm
      rw [if_neg this]
      rfl

theorem dinsert_of_lookup_none {α : Type} {m : Dict α} {k : Nat} (v : α)
    (h : lookup m k = none) : dinsert m k v = m ++ [(k, v)] := by
  simp [dinsert, h]

theorem setBorrowed_map_fst (m : Dict Book) (k : Nat) :
    (setBorrowed m k).map Prod.fst = m.map Prod.fst := by
  induction m with
  | nil => rfl
  | cons p m ih =>
    by_cases h : p.1 = k
    · rw [setBorrowed_cons, if_pos h, List.map_cons, List.map_cons, ih]
    · rw [setBorrowed_cons, if_neg h, List.map_cons, List.map_cons, ih]

theorem lookup_setBorrowed_self {m : Dict Book} {k : Nat} {b : Book}
    (h : lookup m k = some b) :
    lookup (setBorrowed m k) k = some { b with is_borrowed := true } := by
  induction m with
  | nil => simp [lookup] at h
  | cons p m ih =>
    by_cases hk : p.1 = k
    · rw [lookup_cons, if_pos hk] at h
      injection h with h
      subst h
      rw [setBorrowed_cons, if_pos hk, lookup_cons, if_pos hk]
    · rw [lookup_cons, if_neg hk] at h
      rw [setBorrowed_cons, if_neg hk, lookup_cons, if_neg hk]
      exact ih h

theorem lookup_setBorrowed_ne (m : Dict Book) {k j : Nat} (h : j ≠ k) :
    lookup (setBorrowed m k) j = lookup m j := by
  induction m with
  | nil => rfl
  | cons p m ih =>
    by_cases hk : p.1 = k
    · have hpj : ¬(p.1 = j) := fun hh => h (hk ▸ hh).symm
      rw [setBorrowed_cons, if_pos hk, lookup_cons, lookup_cons, if_neg hpj]
      have hpj2 : ¬((p.1, { p.2 with is_borrowed := true }).1 = j) := hpj
      rw [if_neg hpj2]
      exact ih
    · rw [setBorrowed_cons, if_neg hk, lookup_cons, lookup_cons]
      by_cases hj : p.1 = j
      · rw [if_pos hj, if_pos hj]
      · rw [if_neg hj, if_neg hj]
        exact ih

theorem dgetEntry_eq_some {α : Type} {m : Dict α} {rv : ReqVal} {k : Nat} {v : α} :
    dgetEntry m rv = some (k, v) ↔ rv.toKey = some k ∧ lookup m k = some v := by
  constructor
  · intro h
    cases hk : rv.toKey with
    | none => simp [dgetEntry, hk] at h
    | some k' =>
      cases hl : lookup m k' with
      | none => simp [dgetEntry, hk, hl] at h
      | some v' =>
        simp only [dgetEntry, hk, hl, Option.some.injEq, Prod.mk.injEq] at h
        obtain ⟨h1, h2⟩ := h
        subst h1; subst h2
        exact ⟨rfl, hl⟩
  · rintro ⟨hk, hl⟩
    simp [dgetEntry, hk, hl]

/-! ### The reachable-state invariant -/

/-- The invariant maintained by the four handlers: counters start at 1 and
dominate every issued key, keys are exactly the initial segment of issued
ids, records carry their own key as `id`, borrow assignments point at
borrowed books and existing users, borrowed books have an assignment, and
assignment keys are unique. -/
structure Inv (s : LibState) : Prop where
  book_counter_pos : 1 ≤ s.book_id_counter
  user_counter_pos : 1 ≤ s.user_id_counter
  book_keys : s.books.map Prod.fst = List.range' 1 (s.book_id_counter - 1)
  user_keys : s.users.map Prod.fst = List.range' 1 (s.user_id_counter - 1)
  book_ids : ∀ p ∈ s.books, p.2.id = p.1
  bb_borrowed : ∀ p ∈ s.borrowed_books,
    ∃ b, lookup s.books p.1 = some b ∧ b.is_borrowed = true
  bb_user : ∀ p ∈ s.borrowed_books, (lookup s.users p.2).isSome = true
  borrowed_bb : ∀ p ∈ s.books,
    p.2.is_borrowed = true → (lookup s.borrowed_books p.1).isSome = true
  bb_nodup : (s.borrowed_books.map Prod.fst).Nodup

theorem inv_initState : Inv initState := by
  refine ⟨?_, ?_, ?_, ?_, ?_, ?_, ?_, ?_, ?_⟩ <;> simp [initState]

theorem counter_not_in_books {s : LibState} (hInv : Inv s) :
    lookup s.books s.book_id_counter = none := by
  rw [lookup_eq_none_iff, hInv.book_keys]
  simp only [List.mem_range'_1]
  omega

theorem counter_not_in_users {s : LibState} (hInv : Inv s) :
    lookup s.users s.user_id_counter = none := by
  rw [lookup_eq_none_iff, hInv.user_keys]
  simp only [List.mem_range'_1]
  omega

theorem inv_registerBook {s : LibState} (hInv : Inv s) (t a : ReqVal) :
    Inv (registerBook s t a).1 := by
  unfold registerBook
  by_cases hv : (t.falsy || a.falsy) = true
  · rw [if_pos hv]; exact hInv
  · rw [if_neg hv]
    have hnone : lookup s.books s.book_id_counter = none := counter_not_in_books hInv
    simp only [dinsert_of_lookup_none _ hnone]
    refine ⟨?_, ?_, ?_, ?_, ?_, ?_, ?_, ?_, ?_⟩
    · show 1 ≤ s.book_id_counter + 1
      omega
    · exact hInv.user_counter_pos
    · show (s.books ++ [_]).map Prod.fst = List.range' 1 (s.book_id_counter + 1 - 1)
      rw [List.map_append, hInv.book_keys]
      simp only [List.map_cons, List.map_nil]
      have h2 : s.book_id_counter + 1 - 1 = (s.book_id_counter - 1) + 1 := by
        have := hInv.book_counter_pos; omega
      have h3 : 1 + (s.book_id_counter - 1) = s.book_id_counter := by
        have := hInv.book_counter_pos; omega
      rw [h2, List.range'_1_concat, h3]
    · exact hInv.user_keys
    · intro p hp
      rcases List.mem_append.mp hp with hp | hp
      · exact hInv.book_ids p hp
      · rw [List.mem_singleton] at hp
        subst hp
        rfl
    · intro p hp
      obtain ⟨b, hb1, hb2⟩ := hInv.bb_borrowed p hp
      exact ⟨b, lookup_append_left _ hb1, hb2⟩
    · exact hInv.bb_user
    · intro p hp hbor
      rcases List.mem_append.mp hp with hp | hp
      · exact hInv.borrowed_bb p hp hbor
      · rw [List.mem_singleton] at hp
        subst hp
        simp at hbor
    · exact hInv.bb_nodup

theorem inv_registerUser {s : LibState} (hInv : Inv s) (n : ReqVal) :
    Inv (registerUser s n).1 := by
  unfold registerUser
  by_cases hv : n.falsy = true
  · rw [if_pos hv]; exact hInv
  · rw [if_neg hv]
    have hnone : lookup s.users s.user_id_counter = none := counter_not_in_users hInv
    simp only [dinsert_of_lookup_none _ hnone]
    refine ⟨?_, ?_, ?_, ?_, ?_, ?_, ?_, ?_, ?_⟩
    · exact hInv.book_counter_pos
    · show 1 ≤ s.user_id_counter + 1
      omega
    · exact hInv.book_keys
    · show (s.users ++ [_]).map Prod.fst = List.range' 1 (s.user_id_counter + 1 - 1)
      rw [List.map_append, hInv.user_keys]
      simp only [List.map_cons, List.map_nil]
      have h2 : s.user_id_counter + 1 - 1 = (s.user_id_counter - 1) + 1 := by
        have := hInv.user_counter_pos; omega
      have h3 : 1 + (s.user_id_counter - 1) = s.user_id_counter := by
        have := hInv.user_counter_pos; omega
      rw [h2, List.range'_1_concat, h3]
    · exact hInv.book_ids
    · exact hInv.bb_borrowed
    · intro p hp
      obtain ⟨v, hv2⟩ := Option.isSome_iff_exists.mp (hInv.bb_user p hp)
      rw [lookup_append_left _ hv2]
      rfl
    · exact hInv.borrowed_bb
    · exact hInv.bb_nodup

/-- On every reachable state, if the availability check of
`BorrowBookView.post` passes, the book id is not yet an assignment key. -/
theorem bb_lookup_none_of_not_borrowed {s : LibState} (hInv : Inv s) {bk : Nat} {book : Book}
    (hbl : lookup s.books bk = some book) (hbor : book.is_borrowed = false) :
    lookup s.borrowed_books bk = none := by
  cases hl : lookup s.borrowed_books bk with
  | none => rfl
  | some u =>
    obtain ⟨b, hb2, hb3⟩ := hInv.bb_borrowed (bk, u) (lookup_mem hl)
    rw [hbl] at hb2
    injection hb2 with hb2
    subst hb2
    rw [hbor] at hb3
    exact absurd hb3 (by simp)

/-! ### Response equations for `BorrowBookView.post`, one per exit path -/

theorem borrowBook_validation {s : LibState} {userId bookId : ReqVal}
    (hv : (userId.falsy || bookId.falsy) = true) :
    borrowBook s userId bookId = (s, .err 400 "userId and bookId are required.") := by
  simp [borrowBook, hv]

theorem borrowBook_user_missing {s : LibState} {userId bookId : ReqVal}
    (hv : (userId.falsy || bookId.falsy) = false)
    (hu : dgetEntry s.users userId = none) :
    borrowBook s userId bookId = (s, .err 404 "User not found.") := by
  simp [borrowBook, hv, hu]

theorem borrowBook_book_missing {s : LibState} {userId bookId : ReqVal} {uk : Nat} {user : User}
    (hv : (userId.falsy || bookId.falsy) = false)
    (hu : dgetEntry s.users userId = some (uk, user))
    (hb : dgetEntry s.books bookId = none) :
    borrowBook s userId bookId = (s, .err 404 "Book not found.") := by
  simp [borrowBook, hv, hu, hb]

theorem borrowBook_conflict {s : LibState} {userId bookId : ReqVal} {uk bk : Nat}
    {user : User} {book : Book}
    (hv : (userId.falsy || bookId.falsy) = false)
    (hu : dgetEntry s.users userId = some (uk, user))
    (hb : dgetEntry s.books bookId = some (bk, book))
    (hbor : book.is_borrowed = true) :
    borrowBook s userId bookId = (s, .err 400 "Book is already borrowed.") := by
  simp [borrowBook, hv, hu, hb, hbor]

theorem borrowBook_success {s : LibState} {userId bookId : ReqVal} {uk bk : Nat}
    {user : User} {book : Book}
    (hv : (userId.falsy || bookId.falsy) = false)
    (hu : dgetEntry s.users userId = some (uk, user))
    (hb : dgetEntry s.books bookId = some (bk, book))
    (hbor : book.is_borrowed = false) :
    borrowBook s userId bookId =
      ({ s with books := setBorrowed s.books bk
                borrowed_books := dinsert s.borrowed_books bk uk },
       .borrowMsg ("Book \x27" ++ book.title.toStr ++ "\x27 borrowed by user \x27"
         ++ user.name.toStr ++ "\x27.")) := by
  simp [borrowBook, hv, hu, hb, hbor]

theorem inv_borrowBook {s : LibState} (hInv : Inv s) (userId bookId : ReqVal) :
    Inv (borrowBook s userId bookId).1 := by
  cases hv : (userId.falsy || bookId.falsy) with
  | true => rw [borrowBook_validation hv]; exact hInv
  | false =>
    cases hu : dgetEntry s.users userId with
    | none => rw [borrowBook_user_missing hv hu]; exact hInv
    | some ue =>
      obtain ⟨uk, user⟩ := ue
      cases hb : dgetEntry s.books bookId with
      | none => rw [borrowBook_book_missing hv hu hb]; exact hInv
      | some be =>
        obtain ⟨bk, book⟩ := be
        cases hbor : book.is_borrowed with
        | true => rw [borrowBook_conflict hv hu hb hbor]; exact hInv
        | false =>
          obtain ⟨huk, hul⟩ := dgetEntry_eq_some.mp hu
          obtain ⟨hbk, hbl⟩ := dgetEntry_eq_some.mp hb
          have hbornot : book.is_borrowed = false := hbor
          have hbbnone : lookup s.borrowed_books bk = none :=
            bb_lookup_none_of_not_borrowed hInv hbl hbornot
          rw [borrowBook_success hv hu hb hbor]
          simp only [dinsert_of_lookup_none _ hbbnone]
          refine ⟨hInv.book_counter_pos, hInv.user_counter_pos, ?_, hInv.user_keys,
            ?_, ?_, ?_, ?_, ?_⟩
          · show (setBorrowed s.books bk).map Prod.fst = _
            rw [setBorrowed_map_fst]
            exact hInv.book_keys
          · intro p hp
            obtain ⟨q, hq, hform⟩ := List.mem_map.mp hp
            by_cases hqk : q.1 = bk
            · rw [if_pos hqk] at hform
              subst hform
              exact hInv.book_ids q hq
            · rw [if_neg hqk] at hform
              subst hform
              exact hInv.book_ids q hq
          · intro p hp
            rcases List.mem_append.mp hp with hp | hp
            · obtain ⟨b, hbloc, hbtrue⟩ := hInv.bb_borrowed p hp
              by_cases hpk : p.1 = bk
              · rw [hpk, hbl] at hbloc
                injection hbloc with hbloc
                subst hbloc
                rw [hbornot] at hbtrue
                exact absurd hbtrue (by simp)
              · refine ⟨b, ?_, hbtrue⟩
                rw [lookup_setBorrowed_ne _ hpk]
                exact hbloc
            · rw [List.mem_singleton] at hp
              subst hp
              exact ⟨{ book with is_borrowed := true }, lookup_setBorrowed_self hbl, rfl⟩
          · intro p hp
            rcases List.mem_append.mp hp with hp | hp
            · exact hInv.bb_user p hp
            · rw [List.mem_singleton] at hp
              subst hp
              rw [hul]
              rfl
          · intro p hp hbor2
            obtain ⟨q, hq, hform⟩ := List.mem_map.mp hp
            by_cases hqk : q.1 = bk
            · rw [if_pos hqk] at hform
              subst hform
              show (lookup (s.borrowed_books ++ [(bk, uk)]) q.1).isSome = true
              rw [hqk, lookup_append_right hbbnone, lookup_cons]
              simp
            · rw [if_neg hqk] at hform
              subst hform
              have := hInv.borrowed_bb q hq hbor2
              obtain ⟨u, hu2⟩ := Option.isSome_iff_exists.mp this
              rw [lookup_append_left _ hu2]
              rfl
          · rw [List.map_append]
            simp only [List.map_cons, List.map_nil]
            have hnb : bk ∉ s.borrowed_books.map Prod.fst :=
              (lookup_eq_none_iff _ _).mp hbbnone
            refine hInv.bb_nodup.append (List.nodup_singleton _) ?_
            intro a ha hb2
            rw [List.mem_singleton] at hb2
            subst hb2
            exact hnb ha

theorem listBorrowedBooks_state (s : LibState) (u : Nat) :
    (listBorrowedBooks s u).1 = s := by
  unfold listBorrowedBooks
  by_cases h : (lookup s.users u).isSome = false
  · rw [if_pos h]
  · rw [if_neg h]

/-! ### Response equations for the other three handlers -/

theorem registerBook_validation {s : LibState} {t a : ReqVal}
    (hv : (t.falsy || a.falsy) = true) :
    registerBook s t a = (s, .err 400 "Title and author are required.") := by
  simp [registerBook, hv]

theorem registerBook_success {s : LibState} {t a : ReqVal}
    (hv : (t.falsy || a.falsy) = false) :
    registerBook s t a =
      ({ s with
          books := dinsert s.books s.book_id_counter (Book.mk s.book_id_counter t a false),
          book_id_counter := s.book_id_counter + 1 },
       .bookCreated (Book.mk s.book_id_counter t a false)) := by
  simp [registerBook, hv]

theorem registerUser_validation {s : LibState} {n : ReqVal} (hv : n.falsy = true) :
    registerUser s n = (s, .err 400 "Name is required.") := by
  simp [registerUser, hv]

theorem registerUser_success {s : LibState} {n : ReqVal} (hv : n.falsy = false) :
    registerUser s n =
      ({ s with
          users := dinsert s.users s.user_id_counter (User.mk s.user_id_counter n),
          user_id_counter := s.user_id_counter + 1 },
       .userCreated (User.mk s.user_id_counter n)) := by
  simp [registerUser, hv]

theorem listBorrowedBooks_user_missing {s : LibState} {u : Nat}
    (h : lookup s.users u = none) :
    listBorrowedBooks s u = (s, .err 404 "User not found.") := by
  simp [listBorrowedBooks, h]

theorem listBorrowedBooks_success {s : LibState} {u : Nat} {w : User}
    (h : lookup s.users u = some w) :
    listBorrowedBooks s u = (s, .bookList (userBorrowedList s u)) := by
  simp [listBorrowedBooks, h]

/-! ### The invariant holds on every reachable state -/

theorem inv_step {s : LibState} (hInv : Inv s) (op : Op) : Inv (step s op) := by
  cases op with
  | regBook t a => exact inv_registerBook hInv t a
  | regUser n => exact inv_registerUser hInv n
  | borrow u b => exact inv_borrowBook hInv u b
  | listB u =>
    show Inv (listBorrowedBooks s u).1
    rw [listBorrowedBooks_state]
    exact hInv

theorem inv_foldl (ops : List Op) : ∀ s, Inv s → Inv (ops.foldl step s) := by
  induction ops with
  | nil => intro s h; exact h
  | cons op ops ih =>
    intro s h
    exact ih _ (inv_step h op)

theorem inv_run (ops : List Op) : Inv (run ops) :=
  inv_foldl ops initState inv_initState

/-! ### Claims -/

/-- Claim C1: `BorrowBookView.post` checks its preconditions in the stated
order on every request: presence of both ids (else the 400 validation
error), then existence of the user (else 404 "User not found."), then
existence of the book (else 404 "Book not found."), then availability
(else the 400 conflict error); in particular, when both the user and the
book are nonexistent the response is "User not found." and never
"Book not found.". -/
theorem claim_C1_borrow_check_order (s : LibState) (userId bookId : ReqVal) :
    ((userId.falsy || bookId.falsy) = true →
      (borrowBook s userId bookId).2 = .err 400 "userId and bookId are required.") ∧
    ((userId.falsy || bookId.falsy) = false → dgetEntry s.users userId = none →
      (borrowBook s userId bookId).2 = .err 404 "User not found.") ∧
    ((userId.falsy || bookId.falsy) = false → dgetEntry s.users userId = none →
      (borrowBook s userId bookId).2 ≠ .err 404 "Book not found.") ∧
    (∀ uk user, (userId.falsy || bookId.falsy) = false →
      dgetEntry s.users userId = some (uk, user) → dgetEntry s.books bookId = none →
      (borrowBook s userId bookId).2 = .err 404 "Book not found.") ∧
    (∀ uk user bk book, (userId.falsy || bookId.falsy) = false →
      dgetEntry s.users userId = some (uk, user) →
      dgetEntry s.books bookId = some (bk, book) → book.is_borrowed = true →
      (borrowBook s userId bookId).2 = .err 400 "Book is already borrowed.") := by
  refine ⟨?_, ?_, ?_, ?_, ?_⟩
  · intro hv
    rw [borrowBook_validation hv]
  · intro hv hu
    rw [borrowBook_user_missing hv hu]
  · intro hv hu
    rw [borrowBook_user_missing hv hu]
    intro h
    injection h with h1 h2
    exact absurd h2 (by decide)
  · intro uk user hv hu hb
    rw [borrowBook_book_missing hv hu hb]
  · intro uk user bk book hv hu hb hbor
    rw [borrowBook_conflict hv hu hb hbor]

theorem claim_C1_witness :
    (borrowBook initState (.intVal 5) (.intVal 7)).2 = .err 404 "User not found." ∧
    (borrowBook initState (.intVal 5) (.intVal 7)).2 ≠ .err 404 "Book not found." :=
  ⟨(claim_C1_borrow_check_order initState (.intVal 5) (.intVal 7)).2.1
      (by decide) (by decide),
   (claim_C1_borrow_check_order initState (.intVal 5) (.intVal 7)).2.2.1
      (by decide) (by decide)⟩

/-- Claim C3: borrowing a book whose `is_borrowed` flag is already true always
fails with the 400 conflict error, whichever (present, existing) user
makes the request; the response mentions neither the user nor any
user-dependent data, and the state is unchanged. -/
theorem claim_C3_conflict (s : LibState) (userId bookId : ReqVal) (uk bk : Nat)
    (user : User) (book : Book)
    (hv : (userId.falsy || bookId.falsy) = false)
    (hu : dgetEntry s.users userId = some (uk, user))
    (hb : dgetEntry s.books bookId = some (bk, book))
    (hbor : book.is_borrowed = true) :
    borrowBook s userId bookId = (s, .err 400 "Book is already borrowed.") :=
  borrowBook_conflict hv hu hb hbor

theorem claim_C3_witness :
    borrowBook
        (run [Op.regBook (.strVal "B") (.strVal "A"), Op.regUser (.strVal "u"),
          Op.regUser (.strVal "v"), Op.borrow (.intVal 1) (.intVal 1)])
        (.intVal 2) (.intVal 1) =
      (run [Op.regBook (.strVal "B") (.strVal "A"), Op.regUser (.strVal "u"),
          Op.regUser (.strVal "v"), Op.borrow (.intVal 1) (.intVal 1)],
       .err 400 "Book is already borrowed.") :=
  claim_C3_conflict _ (.intVal 2) (.intVal 1) 2 1
    (User.mk 2 (.strVal "v")) (Book.mk 1 (.strVal "B") (.strVal "A") true)
    (by decide) (by decide) (by decide) (by decide)

/-- Claim C10: the presence check of `BorrowBookView.post` uses Python
truthiness, so the id 0 and the empty string count as missing: any such
request gets the 400 validation error with no state change, never a 404
not-found error. -/
theorem claim_C10_falsy_values (s : LibState) (userId bookId : ReqVal) :
    (ReqVal.intVal 0).falsy = true ∧ (ReqVal.strVal "").falsy = true ∧
    ReqVal.absent.falsy = true ∧
    ((userId.falsy = true ∨ bookId.falsy = true) →
      borrowBook s userId bookId = (s, .err 400 "userId and bookId are required.")) := by
  refine ⟨rfl, rfl, rfl, ?_⟩
  intro h
  apply borrowBook_validation
  rcases h with h | h <;> simp [h]

theorem claim_C10_witness :
    borrowBook (run [Op.regBook (.strVal "B") (.strVal "A"), Op.regUser (.strVal "u")])
        (.intVal 0) (.intVal 1) =
      (run [Op.regBook (.strVal "B") (.strVal "A"), Op.regUser (.strVal "u")],
       .err 400 "userId and bookId are required.") :=
  (claim_C10_falsy_values _ (.intVal 0) (.intVal 1)).2.2.2 (Or.inl (by decide))

/-- Claim C4: every handler is all-or-nothing: a response carrying an error
body leaves the three collections and both counters exactly as they
were, and the list endpoint never mutates state. -/
theorem claim_C4_atomicity (s : LibState) :
    (∀ t a s' c m, registerBook s t a = (s', .err c m) → s' = s) ∧
    (∀ n s' c m, registerUser s n = (s', .err c m) → s' = s) ∧
    (∀ u b s' c m, borrowBook s u b = (s', .err c m) → s' = s) ∧
    (∀ u, (listBorrowedBooks s u).1 = s) := by
  refine ⟨?_, ?_, ?_, listBorrowedBooks_state s⟩
  · intro t a s' c m h
    cases hv : (t.falsy || a.falsy) with
    | true =>
      rw [registerBook_validation hv] at h
      injection h with h1 h2
      exact h1.symm
    | false =>
      rw [registerBook_success hv] at h
      injection h with h1 h2
      exact absurd h2 (by simp)
  · intro n s' c m h
    cases hv : n.falsy with
    | true =>
      rw [registerUser_validation hv] at h
      injection h with h1 h2
      exact h1.symm
    | false =>
      rw [registerUser_success hv] at h
      injection h with h1 h2
      exact absurd h2 (by simp)
  · intro u b s' c m h
    cases hv : (u.falsy || b.falsy) with
    | true =>
      rw [borrowBook_validation hv] at h
      injection h with h1 h2
      exact h1.symm
    | false =>
      cases hu : dgetEntry s.users u with
      | none =>
        rw [borrowBook_user_missing hv hu] at h
        injection h with h1 h2
        exact h1.symm
      | some ue =>
        obtain ⟨uk, user⟩ := ue
        cases hb : dgetEntry s.books b with
        | none =>
          rw [borrowBook_book_missing hv hu hb] at h
          injection h with h1 h2
          exact h1.symm
        | some be =>
          obtain ⟨bk, book⟩ := be
          cases hbor : book.is_borrowed with
          | true =>
            rw [borrowBook_conflict hv hu hb hbor] at h
            injection h with h1 h2
            exact h1.symm
          | false =>
            rw [borrowBook_success hv hu hb hbor] at h
            injection h with h1 h2
            exact absurd h2 (by simp)

theorem claim_C4_witness :
    run [Op.regBook (.strVal "B") (.strVal "A")] =
      run [Op.regBook (.strVal "B") (.strVal "A")] :=
  (claim_C4_atomicity (run [Op.regBook (.strVal "B") (.strVal "A")])).2.2.1
    (.intVal 9) (.intVal 1)
    (run [Op.regBook (.strVal "B") (.strVal "A")]) 404 "User not found."
    (by decide)

/-- Claim C8: RegisterBook signals the validation error, creating nothing,
exactly when title or author is missing/empty; otherwise it returns a
book carrying the next sequential id with `is_borrowed = false`, stores
it under that id, and bumps the counter. -/
theorem claim_C8_registerBook (s : LibState) (t a : ReqVal) :
    (((registerBook s t a).2 = .err 400 "Title and author are required.") ↔
      (t.falsy || a.falsy) = true) ∧
    ((t.falsy || a.falsy) = true → (registerBook s t a).1 = s) ∧
    ((t.falsy || a.falsy) = false →
      (registerBook s t a).2 = .bookCreated (Book.mk s.book_id_counter t a false) ∧
      lookup (registerBook s t a).1.books s.book_id_counter =
        some (Book.mk s.book_id_counter t a false) ∧
      (registerBook s t a).1.book_id_counter = s.book_id_counter + 1) := by
  refine ⟨?_, ?_, ?_⟩
  · constructor
    · intro h
      cases hv : (t.falsy || a.falsy) with
      | true => rfl
      | false =>
        rw [registerBook_success hv] at h
        exact absurd h (by simp)
    · intro hv
      rw [registerBook_validation hv]
  · intro hv
    rw [registerBook_validation hv]
  · intro hv
    rw [registerBook_success hv]
    exact ⟨rfl, lookup_dinsert_self _ _ _, rfl⟩

theorem claim_C8_witness :
    ((registerBook initState (.strVal "1984") ReqVal.absent).2 =
        .err 400 "Title and author are required.") ∧
    (registerBook initState (.strVal "1984") (.strVal "Orwell")).2 =
        .bookCreated (Book.mk 1 (.strVal "1984") (.strVal "Orwell") false) ∧
    lookup (registerBook initState (.strVal "1984") (.strVal "Orwell")).1.books 1 =
        some (Book.mk 1 (.strVal "1984") (.strVal "Orwell") false) ∧
    (registerBook initState (.strVal "1984") (.strVal "Orwell")).1.book_id_counter = 2 :=
  ⟨(claim_C8_registerBook initState (.strVal "1984") ReqVal.absent).1.mpr (by decide),
   (claim_C8_registerBook initState (.strVal "1984") (.strVal "Orwell")).2.2 (by decide)⟩

/-- Claim C5: when all four preconditions pass for user `uk` and book `bk`, the
borrow sets that book's `is_borrowed` flag, records the assignment
`borrowed_books[bk] = uk`, leaves every other book and all users
unchanged, and returns a confirmation message containing the book's
title and the user's name. -/
theorem claim_C5_borrow_success (s : LibState) (userId bookId : ReqVal) (uk bk : Nat)
    (user : User) (book : Book)
    (hv : (userId.falsy || bookId.falsy) = false)
    (hu : dgetEntry s.users userId = some (uk, user))
    (hb : dgetEntry s.books bookId = some (bk, book))
    (hbor : book.is_borrowed = false) :
    lookup (borrowBook s userId bookId).1.books bk =
      some { book with is_borrowed := true } ∧
    lookup (borrowBook s userId bookId).1.borrowed_books bk = some uk ∧
    (∀ j, j ≠ bk → lookup (borrowBook s userId bookId).1.books j = lookup s.books j) ∧
    (borrowBook s userId bookId).1.users = s.users ∧
    (∃ msg, (borrowBook s userId bookId).2 = .borrowMsg msg ∧
      (∃ x y, msg = x ++ book.title.toStr ++ y) ∧
      (∃ x y, msg = x ++ user.name.toStr ++ y)) := by
  have hbl : lookup s.books bk = some book := (dgetEntry_eq_some.mp hb).2
  rw [borrowBook_success hv hu hb hbor]
  refine ⟨lookup_setBorrowed_self hbl, lookup_dinsert_self _ _ _, ?_, rfl, ?_⟩
  · intro j hj
    exact lookup_setBorrowed_ne _ hj
  · refine ⟨_, rfl, ?_, ?_⟩
    · refine ⟨"Book \x27", "\x27 borrowed by user \x27" ++ user.name.toStr ++ "\x27.", ?_⟩
      simp [String.append_assoc]
    · refine ⟨"Book \x27" ++ book.title.toStr ++ "\x27 borrowed by user \x27", "\x27.", ?_⟩
      simp [String.append_assoc]

theorem claim_C5_witness :
    lookup (borrowBook (run [Op.regBook (.strVal "1984") (.strVal "Orwell"),
        Op.regUser (.strVal "Alice")]) (.intVal 1) (.intVal 1)).1.books 1 =
      some (Book.mk 1 (.strVal "1984") (.strVal "Orwell") true) ∧
    lookup (borrowBook (run [Op.regBook (.strVal "1984") (.strVal "Orwell"),
        Op.regUser (.strVal "Alice")]) (.intVal 1) (.intVal 1)).1.borrowed_books 1 =
      some 1 :=
  ⟨(claim_C5_borrow_success _ (.intVal 1) (.intVal 1) 1 1
      (User.mk 1 (.strVal "Alice")) (Book.mk 1 (.strVal "1984") (.strVal "Orwell") false)
      (by decide) (by decide) (by decide) (by decide)).1,
   (claim_C5_borrow_success _ (.intVal 1) (.intVal 1) 1 1
      (User.mk 1 (.strVal "Alice")) (Book.mk 1 (.strVal "1984") (.strVal "Orwell") false)
      (by decide) (by decide) (by decide) (by decide)).2.1⟩

/-- Claim C2: in every state reachable by a sequence of the four operations, a
book id is a key of `borrowed_books` iff that book's `is_borrowed` flag
is true; and a book id determines its borrower uniquely, so each book
has at most one active borrower. -/
theorem claim_C2_assignment_iff_flag (ops : List Op) :
    (∀ bid, (lookup (run ops).borrowed_books bid).isSome = true ↔
      ∃ b, lookup (run ops).books bid = some b ∧ b.is_borrowed = true) ∧
    (∀ bid u1 u2, (bid, u1) ∈ (run ops).borrowed_books →
      (bid, u2) ∈ (run ops).borrowed_books → u1 = u2) := by
  have hInv := inv_run ops
  constructor
  · intro bid
    constructor
    · intro h
      obtain ⟨u, hu⟩ := Option.isSome_iff_exists.mp h
      exact hInv.bb_borrowed (bid, u) (lookup_mem hu)
    · rintro ⟨b, hb, hbor⟩
      exact hInv.borrowed_bb (bid, b) (lookup_mem hb) hbor
  · intro bid u1 u2 h1 h2
    have hl1 := mem_lookup_of_nodup hInv.bb_nodup h1
    have hl2 := mem_lookup_of_nodup hInv.bb_nodup h2
    rw [hl1] at hl2
    exact Option.some.inj hl2

theorem claim_C2_witness :
    (lookup (run [Op.regBook (.strVal "B") (.strVal "A"), Op.regUser (.strVal "u"),
        Op.borrow (.intVal 1) (.intVal 1)]).borrowed_books 1).isSome = true :=
  ((claim_C2_assignment_iff_flag [Op.regBook (.strVal "B") (.strVal "A"),
      Op.regUser (.strVal "u"), Op.borrow (.intVal 1) (.intVal 1)]).1 1).mpr
    ⟨Book.mk 1 (.strVal "B") (.strVal "A") true, by decide, rfl⟩

/-- Claim C7: on every reachable state the book keys are exactly the strictly
increasing sequence 1, 2, ..., counter-1 (so ids are sequential from 1,
unique and increasing in their own namespace), likewise for user keys
with the independent user counter, and a valid register returns a record
whose id is the current counter value, which was never issued before. -/
theorem claim_C7_sequential_ids (ops : List Op) :
    ((run ops).books.map Prod.fst = List.range' 1 ((run ops).book_id_counter - 1)) ∧
    ((run ops).users.map Prod.fst = List.range' 1 ((run ops).user_id_counter - 1)) ∧
    ((run ops).books.map Prod.fst).Pairwise (· < ·) ∧
    ((run ops).users.map Prod.fst).Pairwise (· < ·) ∧
    (∀ t a, (t.falsy || a.falsy) = false →
      (registerBook (run ops) t a).2 =
        .bookCreated (Book.mk (run ops).book_id_counter t a false) ∧
      (run ops).book_id_counter ∉ (run ops).books.map Prod.fst) ∧
    (∀ n, n.falsy = false →
      (registerUser (run ops) n).2 =
        .userCreated (User.mk (run ops).user_id_counter n) ∧
      (run ops).user_id_counter ∉ (run ops).users.map Prod.fst) := by
  have hInv := inv_run ops
  refine ⟨hInv.book_keys, hInv.user_keys, ?_, ?_, ?_, ?_⟩
  · rw [hInv.book_keys]
    exact List.pairwise_lt_range' 1 _
  · rw [hInv.user_keys]
    exact List.pairwise_lt_range' 1 _
  · intro t a hv
    refine ⟨by rw [registerBook_success hv], ?_⟩
    exact (lookup_eq_none_iff _ _).mp (counter_not_in_books hInv)
  · intro n hv
    refine ⟨by rw [registerUser_success hv], ?_⟩
    exact (lookup_eq_none_iff _ _).mp (counter_not_in_users hInv)

theorem claim_C7_witness :
    (registerBook (run [Op.regBook (.strVal "B") (.strVal "A"),
        Op.regUser (.strVal "u")]) (.strVal "T") (.strVal "O")).2 =
      .bookCreated (Book.mk 2 (.strVal "T") (.strVal "O") false) ∧
    2 ∉ (run [Op.regBook (.strVal "B") (.strVal "A"),
        Op.regUser (.strVal "u")]).books.map Prod.fst :=
  (claim_C7_sequential_ids [Op.regBook (.strVal "B") (.strVal "A"),
      Op.regUser (.strVal "u")]).2.2.2.2.1 (.strVal "T") (.strVal "O") (by decide)

/-- On a state satisfying the invariant, membership in the list built by
`UserBorrowedBooksView.get` is exactly "assigned to this user". -/
theorem mem_userBorrowedList {s : LibState} (hInv : Inv s) (uid : Nat) (b : Book) :
    b ∈ userBorrowedList s uid ↔
      lookup s.borrowed_books b.id = some uid ∧ lookup s.books b.id = some b := by
  unfold userBorrowedList
  rw [List.mem_filterMap]
  constructor
  · rintro ⟨p, hp, hlk⟩
    rw [List.mem_filter] at hp
    obtain ⟨hpmem, hpuid⟩ := hp
    have hpu : p.2 = uid := by simpa using hpuid
    have hid : b.id = p.1 := hInv.book_ids (p.1, b) (lookup_mem hlk)
    constructor
    · rw [hid]
      have hmem2 : (p.1, uid) ∈ s.borrowed_books := by
        rw [← hpu]
        exact hpmem
      exact mem_lookup_of_nodup hInv.bb_nodup hmem2
    · rw [hid]
      exact hlk
  · rintro ⟨h1, h2⟩
    refine ⟨(b.id, uid), ?_, h2⟩
    rw [List.mem_filter]
    exact ⟨lookup_mem h1, by simp⟩

theorem filterMap_lookup_nodup {books : Dict Book}
    (hids : ∀ p ∈ books, p.2.id = p.1) :
    ∀ l : Dict Nat, (l.map Prod.fst).Nodup →
      (l.filterMap fun p => lookup books p.1).Nodup := by
  intro l
  induction l with
  | nil => intro _; simp
  | cons p rest ih =>
    intro hnd
    rw [List.map_cons, List.nodup_cons] at hnd
    obtain ⟨hnotin, hndrest⟩ := hnd
    simp only [List.filterMap_cons]
    cases hl : lookup books p.1 with
    | none => exact ih hndrest
    | some b =>
      rw [List.nodup_cons]
      refine ⟨?_, ih hndrest⟩
      intro hbmem
      obtain ⟨q, hq, hq2⟩ := List.mem_filterMap.mp hbmem
      have hbq : b.id = q.1 := hids (q.1, b) (lookup_mem hq2)
      have hbp : b.id = p.1 := hids (p.1, b) (lookup_mem hl)
      apply hnotin
      rw [← hbp, hbq]
      exact List.mem_map.mpr ⟨q, hq, rfl⟩

theorem userBorrowedList_nodup {s : LibState} (hInv : Inv s) (uid : Nat) :
    (userBorrowedList s uid).Nodup := by
  apply filterMap_lookup_nodup hInv.book_ids
  have hsub : List.Sublist
      ((s.borrowed_books.filter fun p => p.2 == uid).map Prod.fst)
      (s.borrowed_books.map Prod.fst) :=
    (List.filter_sublist _).map Prod.fst
  exact hInv.bb_nodup.sublist hsub

/-- Claim C6: the list endpoint fails with the 404 "User not found." error iff
the user id is absent, regardless of borrow state; for an existing user
on a reachable state it returns exactly the books whose ids map to that
user in `borrowed_books`, each exactly once (the result has no
duplicates), and the empty list — not an error — when the user holds
nothing.  (With `claim_C5_borrow_success`, this gives: after a
successful borrow the borrowed book appears exactly once, and books
never borrowed by the user are absent.) -/
theorem claim_C6_list (ops : List Op) (uid : Nat) :
    ((listBorrowedBooks (run ops) uid).2 = .err 404 "User not found." ↔
      lookup (run ops).users uid = none) ∧
    (∀ w, lookup (run ops).users uid = some w →
      (listBorrowedBooks (run ops) uid).2 = .bookList (userBorrowedList (run ops) uid) ∧
      (∀ b, b ∈ userBorrowedList (run ops) uid ↔
        lookup (run ops).borrowed_books b.id = some uid ∧
        lookup (run ops).books b.id = some b) ∧
      (userBorrowedList (run ops) uid).Nodup ∧
      ((∀ bid, lookup (run ops).borrowed_books bid ≠ some uid) →
        userBorrowedList (run ops) uid = [])) := by
  have hInv := inv_run ops
  constructor
  · constructor
    · intro h
      cases hl : lookup (run ops).users uid with
      | none => rfl
      | some w =>
        rw [listBorrowedBooks_success hl] at h
        exact absurd h (by simp)
    · intro h
      rw [listBorrowedBooks_user_missing h]
  · intro w hw
    refine ⟨by rw [listBorrowedBooks_success hw], mem_userBorrowedList hInv uid,
      userBorrowedList_nodup hInv uid, ?_⟩
    intro hnone
    rw [List.eq_nil_iff_forall_not_mem]
    intro b hb
    exact hnone b.id ((mem_userBorrowedList hInv uid b).mp hb).1

theorem claim_C6_witness :
    (listBorrowedBooks (run [Op.regBook (.strVal "1984") (.strVal "Orwell"),
        Op.regUser (.strVal "Alice"), Op.borrow (.intVal 1) (.intVal 1)]) 1).2 =
      .bookList (userBorrowedList (run [Op.regBook (.strVal "1984") (.strVal "Orwell"),
        Op.regUser (.strVal "Alice"), Op.borrow (.intVal 1) (.intVal 1)]) 1) :=
  ((claim_C6_list [Op.regBook (.strVal "1984") (.strVal "Orwell"),
      Op.regUser (.strVal "Alice"), Op.borrow (.intVal 1) (.intVal 1)] 1).2
    (User.mk 1 (.strVal "Alice")) (by decide)).1

/-- A single further request never resets a stored book's `is_borrowed`
flag once true. -/
theorem step_books_mono {s : LibState} (hInv : Inv s) (op : Op) {bid : Nat} {b : Book}
    (h : lookup s.books bid = some b) (hb : b.is_borrowed = true) :
    ∃ b', lookup (step s op).books bid = some b' ∧ b'.is_borrowed = true := by
  cases op with
  | regBook t a =>
    show ∃ b', lookup (registerBook s t a).1.books bid = some b' ∧ b'.is_borrowed = true
    cases hv : (t.falsy || a.falsy) with
    | true =>
      rw [registerBook_validation hv]
      exact ⟨b, h, hb⟩
    | false =>
      rw [registerBook_success hv]
      show ∃ b', lookup (dinsert s.books s.book_id_counter _) bid = some b' ∧
        b'.is_borrowed = true
      rw [dinsert_of_lookup_none _ (counter_not_in_books hInv)]
      exact ⟨b, lookup_append_left _ h, hb⟩
  | regUser n =>
    show ∃ b', lookup (registerUser s n).1.books bid = some b' ∧ b'.is_borrowed = true
    cases hv : n.falsy with
    | true =>
      rw [registerUser_validation hv]
      exact ⟨b, h, hb⟩
    | false =>
      rw [registerUser_success hv]
      exact ⟨b, h, hb⟩
  | borrow userId bookId =>
    show ∃ b', lookup (borrowBook s userId bookId).1.books bid = some b' ∧
      b'.is_borrowed = true
    cases hv : (userId.falsy || bookId.falsy) with
    | true =>
      rw [borrowBook_validation hv]
      exact ⟨b, h, hb⟩
    | false =>
      cases hu : dgetEntry s.users userId with
      | none =>
        rw [borrowBook_user_missing hv hu]
        exact ⟨b, h, hb⟩
      | some ue =>
        obtain ⟨uk, user⟩ := ue
        cases hbk : dgetEntry s.books bookId with
        | none =>
          rw [borrowBook_book_missing hv hu hbk]
          exact ⟨b, h, hb⟩
        | some be =>
          obtain ⟨bk, book⟩ := be
          cases hbor : book.is_borrowed with
          | true =>
            rw [borrowBook_conflict hv hu hbk hbor]
            exact ⟨b, h, hb⟩
          | false =>
            rw [borrowBook_success hv hu hbk hbor]
            show ∃ b', lookup (setBorrowed s.books bk) bid = some b' ∧
              b'.is_borrowed = true
            by_cases hbid : bid = bk
            · subst hbid
              have hbl : lookup s.books bid = some book := (dgetEntry_eq_some.mp hbk).2
              exact ⟨{ book with is_borrowed := true },
                lookup_setBorrowed_self hbl, rfl⟩
            · rw [lookup_setBorrowed_ne _ hbid]
              exact ⟨b, h, hb⟩
  | listB u =>
    show ∃ b', lookup (listBorrowedBooks s u).1.books bid = some b' ∧ b'.is_borrowed = true
    rw [listBorrowedBooks_state]
    exact ⟨b, h, hb⟩

/-- A single further request never removes or rewrites an entry of
`borrowed_books`. -/
theorem step_bb_mono {s : LibState} (hInv : Inv s) (op : Op) {bid u : Nat}
    (h : lookup s.borrowed_books bid = some u) :
    lookup (step s op).borrowed_books bid = some u := by
  cases op with
  | regBook t a =>
    show lookup (registerBook s t a).1.borrowed_books bid = some u
    cases hv : (t.falsy || a.falsy) with
    | true => rw [registerBook_validation hv]; exact h
    | false => rw [registerBook_success hv]; exact h
  | regUser n =>
    show lookup (registerUser s n).1.borrowed_books bid = some u
    cases hv : n.falsy with
    | true => rw [registerUser_validation hv]; exact h
    | false => rw [registerUser_success hv]; exact h
  | borrow userId bookId =>
    show lookup (borrowBook s userId bookId).1.borrowed_books bid = some u
    cases hv : (userId.falsy || bookId.falsy) with
    | true => rw [borrowBook_validation hv]; exact h
    | false =>
      cases hu : dgetEntry s.users userId with
      | none => rw [borrowBook_user_missing hv hu]; exact h
      | some ue =>
        obtain ⟨uk, user⟩ := ue
        cases hbk : dgetEntry s.books bookId with
        | none => rw [borrowBook_book_missing hv hu hbk]; exact h
        | some be =>
          obtain ⟨bk, book⟩ := be
          cases hbor : book.is_borrowed with
          | true => rw [borrowBook_conflict hv hu hbk hbor]; exact h
          | false =>
            rw [borrowBook_success hv hu hbk hbor]
            show lookup (dinsert s.borrowed_books bk uk) bid = some u
            have hbl : lookup s.books bk = some book := (dgetEntry_eq_some.mp hbk).2
            have hbbnone : lookup s.borrowed_books bk = none :=
              bb_lookup_none_of_not_borrowed hInv hbl hbor
            rw [dinsert_of_lookup_none _ hbbnone]
            exact lookup_append_left _ h
  | listB v =>
    show lookup (listBorrowedBooks s v).1.borrowed_books bid = some u
    rw [listBorrowedBooks_state]
    exact h

theorem run_append (ops more : List Op) :
    run (ops ++ more) = more.foldl step (run ops) := by
  unfold run
  rw [List.foldl_append]

/-- Claim C9: the book lifecycle is one-way: extending any request sequence by
any further requests never turns a book's `is_borrowed` flag from true
back to false, and never removes (or rewrites) an entry of
`borrowed_books`. -/
theorem claim_C9_one_way (ops more : List Op) :
    (∀ bid b, lookup (run ops).books bid = some b → b.is_borrowed = true →
      ∃ b', lookup (run (ops ++ more)).books bid = some b' ∧ b'.is_borrowed = true) ∧
    (∀ bid u, lookup (run ops).borrowed_books bid = some u →
      lookup (run (ops ++ more)).borrowed_books bid = some u) := by
  rw [run_append]
  have main : ∀ (l : List Op) (s : LibState), Inv s →
      (∀ bid b, lookup s.books bid = some b → b.is_borrowed = true →
        ∃ b', lookup (l.foldl step s).books bid = some b' ∧ b'.is_borrowed = true) ∧
      (∀ bid u, lookup s.borrowed_books bid = some u →
        lookup (l.foldl step s).borrowed_books bid = some u) := by
    intro l
    induction l with
    | nil =>
      intro s hInv
      exact ⟨fun bid b h hb => ⟨b, h, hb⟩, fun bid u h => h⟩
    | cons op rest ih =>
      intro s hInv
      obtain ⟨ih1, ih2⟩ := ih (step s op) (inv_step hInv op)
      refine ⟨?_, ?_⟩
      · intro bid b h hb
        obtain ⟨b', h', hb'⟩ := step_books_mono hInv op h hb
        exact ih1 bid b' h' hb'
      · intro bid u h
        exact ih2 bid u (step_bb_mono hInv op h)
  exact main more (run ops) (inv_run ops)

theorem claim_C9_witness :
    lookup (run ([Op.regBook (.strVal "B") (.strVal "A"), Op.regUser (.strVal "u"),
        Op.borrow (.intVal 1) (.intVal 1)] ++
        [Op.regBook (.strVal "X") (.strVal "Y"), Op.listB 1])).borrowed_books 1 =
      some 1 :=
  (claim_C9_one_way [Op.regBook (.strVal "B") (.strVal "A"), Op.regUser (.strVal "u"),
      Op.borrow (.intVal 1) (.intVal 1)]
      [Op.regBook (.strVal "X") (.strVal "Y"), Op.listB 1]).2 1 1 (by decide)

end BookApi
